import Mathlib

/-!
Shallow embedding of the DIET classifier (`src/rasa/nlu/classifiers/diet_classifier.py`)
covering label/tag index building, entity-tag-spec construction, the training skip
checks, feature extraction consistency checks, and the inference driver
(label ranking and entity-list assembly).
-/

namespace DIET

/-! ### String ordering

Python compares strings lexicographically by code point.  We model that order
directly on the code-point list (`String.data`), which coincides with the
mathematical order on `String` (see `pyStrLe_iff`). -/

/-- Python string comparison `a <= b`: lexicographic on code points. -/
def pyStrLe (a b : String) : Prop := ¬ (b.data < a.data)

instance : DecidableRel pyStrLe := fun a b =>
  inferInstanceAs (Decidable (¬ (b.data < a.data)))

theorem pyStrLe_iff (a b : String) : pyStrLe a b ↔ a.data ≤ b.data := not_lt

instance : IsTrans String pyStrLe :=
  ⟨fun a b c hab hbc => (pyStrLe_iff a c).mpr
    (le_trans ((pyStrLe_iff a b).mp hab) ((pyStrLe_iff b c).mp hbc))⟩

instance : IsTotal String pyStrLe :=
  ⟨fun a b => by
    rcases le_total a.data b.data with h | h
    · exact Or.inl ((pyStrLe_iff a b).mpr h)
    · exact Or.inr ((pyStrLe_iff b a).mpr h)⟩

instance : IsAntisymm String pyStrLe :=
  ⟨fun a b hab hba => by
    have h := le_antisymm ((pyStrLe_iff a b).mp hab) ((pyStrLe_iff b a).mp hba)
    cases a
    cases b
    exact congrArg String.mk (by simpa using h)⟩

/-- `sorted(s)` for a Python set of strings, modelled as sorting the
deduplicated list of observed values. -/
def pySortedStrings (l : List String) : List String :=
  List.insertionSort pyStrLe l.dedup

/-! ### Constants

The constants below are imported by `diet_classifier.py` from rasa modules that
are not part of the source under verification; their values are modelled from
the spec. -/

/-- Modelled from the spec: the reserved no-entity tag
(`NO_ENTITY_TAG` from `rasa.shared.nlu.constants`, not under src); the spec
calls it the "no-entity" tag and reserves id 0 for it. -/
def NO_ENTITY_TAG : String := "no-entity"

/-- Modelled from the spec: the entity type attribute name
(`ENTITY_ATTRIBUTE_TYPE` from `rasa.shared.nlu.constants`, not under src). -/
def ENTITY_ATTRIBUTE_TYPE : String := "entity"

/-- Modelled from the spec: the entity role attribute name
(`ENTITY_ATTRIBUTE_ROLE` from `rasa.shared.nlu.constants`, not under src). -/
def ENTITY_ATTRIBUTE_ROLE : String := "role"

/-- Modelled from the spec: the entity group attribute name
(`ENTITY_ATTRIBUTE_GROUP` from `rasa.shared.nlu.constants`, not under src). -/
def ENTITY_ATTRIBUTE_GROUP : String := "group"

/-- Modelled from the spec: the built-in ranking length cap
(`LABEL_RANKING_LENGTH` from `rasa.nlu.classifiers`, not under src); the spec
fixes it at 10. -/
def LABEL_RANKING_LENGTH : Int := 10

/-- Modelled from the spec: the softmax confidence mode name
(`SOFTMAX` from `rasa.utils.tensorflow.constants`, not under src). -/
def SOFTMAX : String := "softmax"

/-- `POSSIBLE_TAGS` from `diet_classifier.py`: the entity attributes, in the
order type, role, group. -/
def POSSIBLE_TAGS : List String :=
  [ENTITY_ATTRIBUTE_TYPE, ENTITY_ATTRIBUTE_ROLE, ENTITY_ATTRIBUTE_GROUP]

/-! ### Label/Tag index builder -/

/-- The distinct non-null intent values of the training examples:
`{example.get(attribute) for example in training_data.intent_examples} - {None}`.
Each example is represented by its (optional) intent value. -/
def distinctLabelIds (intents : List (Option String)) : List String :=
  (intents.filterMap id).dedup

/-- `DIETClassifier._label_id_index_mapping`: sorted distinct non-null intent
values enumerated from 0.  The Python dict is modelled as an association list
in insertion order. -/
def labelIdIndexMapping (intents : List (Option String)) : List (String × Nat) :=
  (pySortedStrings (intents.filterMap id)).enum.map (fun p => (p.2, p.1))

/-- `DIETClassifier._invert_mapping`. -/
def invertMapping (mapping : List (String × Nat)) : List (Nat × String) :=
  mapping.map (fun p => (p.2, p.1))

/-- The distinct real tags of one entity attribute:
`distinct_tags - {NO_ENTITY_TAG} - {None}` of
`DIETClassifier._tag_id_index_mapping_for`. -/
def realTagsOf (raw : List (Option String)) : List String :=
  (raw.filterMap id).dedup.filter (fun t => t ≠ NO_ENTITY_TAG)

/-- `DIETClassifier._tag_id_index_mapping_for` (flat, non-BILOU vocabulary):
`None` when no real tag remains, otherwise the sorted real tags enumerated
from 1, with `NO_ENTITY_TAG` assigned id 0 (inserted last, as the Python dict
update does). -/
def tagIdIndexMappingFor (raw : List (Option String)) : Option (List (String × Nat)) :=
  let distinctTags := realTagsOf raw
  if distinctTags.isEmpty then none
  else
    some (((List.insertionSort pyStrLe distinctTags).enum.map
      (fun p => (p.2, p.1 + 1))) ++ [(NO_ENTITY_TAG, 0)])

/-! ### Supporting lemmas for the index builders -/

theorem map_snd_enumSwap {α : Type} (l : List α) :
    (l.enum.map (fun p => (p.2, p.1))).map Prod.snd = List.range l.length := by
  rw [List.map_map]
  exact List.enum_map_fst l

theorem map_fst_enumSwap {α : Type} (l : List α) :
    (l.enum.map (fun p => (p.2, p.1))).map Prod.fst = l := by
  rw [List.map_map]
  exact List.enum_map_snd l

theorem pySortedStrings_perm (l : List String) : (pySortedStrings l).Perm l.dedup :=
  List.perm_insertionSort pyStrLe l.dedup

theorem pySortedStrings_sorted (l : List String) : List.Sorted pyStrLe (pySortedStrings l) :=
  List.sorted_insertionSort pyStrLe l.dedup

theorem pySortedStrings_nodup (l : List String) : (pySortedStrings l).Nodup :=
  ((pySortedStrings_perm l).nodup_iff).mpr (List.nodup_dedup l)

theorem pySortedStrings_mem (l : List String) (s : String) :
    s ∈ pySortedStrings l ↔ s ∈ l :=
  ((pySortedStrings_perm l).mem_iff).trans (List.mem_dedup)

theorem pySortedStrings_congr (l₁ l₂ : List String)
    (h : ∀ s, s ∈ l₁ ↔ s ∈ l₂) : pySortedStrings l₁ = pySortedStrings l₂ := by
  have hperm : l₁.dedup.Perm l₂.dedup := by
    apply List.perm_of_nodup_nodup_toFinset_eq (List.nodup_dedup l₁) (List.nodup_dedup l₂)
    ext s
    simp only [List.mem_toFinset, List.mem_dedup]
    exact h s
  exact List.eq_of_perm_of_sorted
    ((pySortedStrings_perm l₁).trans (hperm.trans (pySortedStrings_perm l₂).symm))
    (pySortedStrings_sorted l₁) (pySortedStrings_sorted l₂)

theorem mem_filterMap_id_iff {α : Type} (l : List (Option α)) (a : α) :
    a ∈ l.filterMap id ↔ some a ∈ l := by
  rw [List.mem_filterMap]
  constructor
  · rintro ⟨o, ho, rfl⟩
    exact ho
  · intro h
    exact ⟨some a, h, rfl⟩

/-- Claim C1: the label-id mapping assigns contiguous ids `0..N-1` to the `N`
distinct non-null intent strings in sorted string order, and it is
deterministic: any corpus with the same set of non-null intents produces the
same mapping; in particular intents greet, greet, bye map to bye at 0 and
greet at 1. -/
theorem labelIdIndexMapping_spec (intents : List (Option String))
    (_h2 : 2 ≤ (distinctLabelIds intents).length) :
    ((labelIdIndexMapping intents).map Prod.snd
        = List.range (distinctLabelIds intents).length) ∧
    List.Sorted pyStrLe ((labelIdIndexMapping intents).map Prod.fst) ∧
    ((labelIdIndexMapping intents).map Prod.fst).Nodup ∧
    (∀ s : String, s ∈ (labelIdIndexMapping intents).map Prod.fst ↔ some s ∈ intents) ∧
    (∀ intents2 : List (Option String),
      (∀ s : String, some s ∈ intents ↔ some s ∈ intents2) →
      labelIdIndexMapping intents = labelIdIndexMapping intents2) ∧
    labelIdIndexMapping [some "greet", some "greet", some "bye"]
      = [("bye", 0), ("greet", 1)] := by
  refine ⟨?_, ?_, ?_, ?_, ?_, by decide⟩
  · rw [labelIdIndexMapping, map_snd_enumSwap]
    have hlen : (pySortedStrings (intents.filterMap id)).length
        = (distinctLabelIds intents).length :=
      (pySortedStrings_perm (intents.filterMap id)).length_eq
    rw [hlen]
  · rw [labelIdIndexMapping, map_fst_enumSwap]
    exact pySortedStrings_sorted _
  · rw [labelIdIndexMapping, map_fst_enumSwap]
    exact pySortedStrings_nodup _
  · intro s
    rw [labelIdIndexMapping, map_fst_enumSwap, pySortedStrings_mem,
      mem_filterMap_id_iff]
  · intro intents2 hsame
    rw [labelIdIndexMapping, labelIdIndexMapping, pySortedStrings_congr]
    intro s
    rw [mem_filterMap_id_iff, mem_filterMap_id_iff]
    exact hsame s

/-- Witness for C1 at the corpus greet, greet, bye. -/
theorem labelIdIndexMapping_spec_witness :
    2 ≤ (distinctLabelIds [some "greet", some "greet", some "bye"]).length ∧
    (((labelIdIndexMapping [some "greet", some "greet", some "bye"]).map Prod.snd)
        = List.range
            (distinctLabelIds [some "greet", some "greet", some "bye"]).length) :=
  ⟨by decide,
    (labelIdIndexMapping_spec [some "greet", some "greet", some "bye"] (by decide)).1⟩

theorem map_fst_enumSwapSucc {α : Type} (l : List α) :
    (l.enum.map (fun p => (p.2, p.1 + 1))).map Prod.fst = l := by
  rw [List.map_map]
  exact List.enum_map_snd l

theorem map_snd_enumSwapSucc {α : Type} (l : List α) :
    (l.enum.map (fun p => (p.2, p.1 + 1))).map Prod.snd
      = (List.range l.length).map (fun i => i + 1) := by
  rw [List.map_map, ← List.enum_map_fst l, List.map_map]
  rfl

theorem lookup_append_of_keys_ne {α β : Type} [BEq α] [LawfulBEq α]
    (l₁ l₂ : List (α × β)) (k : α) (h : ∀ p ∈ l₁, p.1 ≠ k) :
    (l₁ ++ l₂).lookup k = l₂.lookup k := by
  induction l₁ with
  | nil => rfl
  | cons p rest ih =>
    have hp : p.1 ≠ k := h p (List.mem_cons_self p rest)
    have hk : (k == p.1) = false := by
      rw [beq_eq_false_iff_ne]
      exact fun hkp => hp hkp.symm
    cases p with
    | mk a b =>
      simp only [List.cons_append, List.lookup, hk]
      exact ih (fun q hq => h q (List.mem_cons_of_mem _ hq))

theorem mem_realTagsOf (raw : List (Option String)) (t : String) :
    t ∈ realTagsOf raw ↔ (some t ∈ raw ∧ t ≠ NO_ENTITY_TAG) := by
  rw [realTagsOf, List.mem_filter, List.mem_dedup, mem_filterMap_id_iff,
    decide_eq_true_eq]

/-- Claim C2: with BILOU disabled, the tag-to-id mapping of an entity attribute
maps the reserved no-entity tag to id 0 and the distinct real tags (no-entity
and null removed) to ids `1..K` in sorted string order, regardless of where
the no-entity tag would sort alphabetically; in particular the vocabulary
containing city and the no-entity tag maps city to 1 and the no-entity tag
to 0 even though city sorts first. -/
theorem tagIdIndexMappingFor_spec (raw : List (Option String))
    (hne : realTagsOf raw ≠ []) :
    ∃ m : List (String × Nat),
      tagIdIndexMappingFor raw = some m ∧
      (NO_ENTITY_TAG, 0) ∈ m ∧
      m.lookup NO_ENTITY_TAG = some 0 ∧
      m.map Prod.fst = List.insertionSort pyStrLe (realTagsOf raw) ++ [NO_ENTITY_TAG] ∧
      m.map Prod.snd = (List.range (realTagsOf raw).length).map (fun i => i + 1) ++ [0] ∧
      List.Sorted pyStrLe (List.insertionSort pyStrLe (realTagsOf raw)) ∧
      (List.insertionSort pyStrLe (realTagsOf raw)).Nodup ∧
      (∀ t : String, t ∈ List.insertionSort pyStrLe (realTagsOf raw) ↔
        (some t ∈ raw ∧ t ≠ NO_ENTITY_TAG)) ∧
      tagIdIndexMappingFor [some "city", some NO_ENTITY_TAG]
        = some [("city", 1), (NO_ENTITY_TAG, 0)] := by
  have hsortperm : (List.insertionSort pyStrLe (realTagsOf raw)).Perm (realTagsOf raw) :=
    List.perm_insertionSort pyStrLe (realTagsOf raw)
  have hempty : (realTagsOf raw).isEmpty = false := by
    cases hcase : realTagsOf raw with
    | nil => exact absurd hcase hne
    | cons a l => rfl
  refine ⟨((List.insertionSort pyStrLe (realTagsOf raw)).enum.map
      (fun p => (p.2, p.1 + 1))) ++ [(NO_ENTITY_TAG, 0)], ?_, ?_, ?_, ?_, ?_, ?_, ?_, ?_,
      by decide⟩
  · rw [tagIdIndexMappingFor]
    simp only [hempty, Bool.false_eq_true, if_false]
  · exact List.mem_append_right _ (List.mem_singleton.mpr rfl)
  · rw [lookup_append_of_keys_ne]
    · rfl
    · intro p hp
      have hfst : p.1 ∈ List.insertionSort pyStrLe (realTagsOf raw) := by
        have := List.mem_map_of_mem Prod.fst hp
        rwa [map_fst_enumSwapSucc] at this
      have := (hsortperm.mem_iff).mp hfst
      exact ((mem_realTagsOf raw p.1).mp this).2
  · rw [List.map_append, map_fst_enumSwapSucc]
    rfl
  · rw [List.map_append, map_snd_enumSwapSucc, hsortperm.length_eq]
    rfl
  · exact List.sorted_insertionSort pyStrLe (realTagsOf raw)
  · exact (hsortperm.nodup_iff).mpr (List.Nodup.filter _ (List.nodup_dedup _))
  · intro t
    rw [hsortperm.mem_iff]
    exact mem_realTagsOf raw t

/-- Witness for C2 at the vocabulary containing city and the no-entity tag. -/
theorem tagIdIndexMappingFor_spec_witness :
    realTagsOf [some "city", some NO_ENTITY_TAG] ≠ [] ∧
    tagIdIndexMappingFor [some "city", some NO_ENTITY_TAG]
      = some [("city", 1), (NO_ENTITY_TAG, 0)] := by
  obtain ⟨m, hm⟩ := tagIdIndexMappingFor_spec [some "city", some NO_ENTITY_TAG] (by decide)
  exact ⟨by decide, hm.2.2.2.2.2.2.2.2⟩

/-! ### Entity tag specs and the per-attribute loss/prediction loops -/

/-- `EntityTagSpec` from `rasa.nlu.extractors.extractor`: tag name, tag-to-id
map, its inverse, and the tag count. -/
structure EntityTagSpec where
  tag_name : String
  tags_to_ids : List (String × Nat)
  ids_to_tags : List (Nat × String)
  num_tags : Nat

/-- The per-attribute distinct tag vocabularies of a training corpus
(`training_data.entities`, `.entity_roles`, `.entity_groups`). -/
structure TrainingDataTags where
  entities : List (Option String)
  entity_roles : List (Option String)
  entity_groups : List (Option String)

/-- The dispatch at the top of `_tag_id_index_mapping_for`: which vocabulary a
tag name reads. -/
def tagsFor (td : TrainingDataTags) (tagName : String) : List (Option String) :=
  if tagName = ENTITY_ATTRIBUTE_ROLE then td.entity_roles
  else if tagName = ENTITY_ATTRIBUTE_GROUP then td.entity_groups
  else td.entities

/-- Modelled from the spec: the four BILOU span-position markers
(Begin/Inside/Unit/Last) used to expand a tag vocabulary when BILOU tagging is
enabled (`bilou_utils`, not under src). -/
def BILOU_PREFIXES : List String := ["B-", "I-", "U-", "L-"]

/-- Modelled from the spec: `bilou_utils.build_tag_id_dict` (not under src) —
the BILOU-expanded tag vocabulary: none when no real tag exists, otherwise
each sorted real tag contributes its four BILOU-marked tags with consecutive
ids starting at 1, and the no-entity tag keeps id 0. -/
def buildTagIdDict (raw : List (Option String)) : Option (List (String × Nat)) :=
  let distinctTags := realTagsOf raw
  if distinctTags.isEmpty then none
  else
    some (((List.insertionSort pyStrLe distinctTags).enum.flatMap
      (fun p => BILOU_PREFIXES.enum.map
        (fun q => (q.2 ++ p.2, p.1 * BILOU_PREFIXES.length + q.1 + 1))))
      ++ [(NO_ENTITY_TAG, 0)])

/-- The loop body of `DIETClassifier._create_entity_tag_specs` for one tag
name: build the tag-id mapping (BILOU or flat, per configuration) and keep a
spec only when the mapping is truthy (not `None` and not empty). -/
def tagSpecFor (bilouFlag : Bool) (td : TrainingDataTags) (tagName : String) :
    Option EntityTagSpec :=
  match (if bilouFlag then buildTagIdDict (tagsFor td tagName)
    else tagIdIndexMappingFor (tagsFor td tagName)) with
  | none => none
  | some m =>
    if m.isEmpty then none
    else some ⟨tagName, m, invertMapping m, m.length⟩

/-- `DIETClassifier._create_entity_tag_specs`: one spec per possible tag name
whose tag-id mapping is truthy. -/
def createEntityTagSpecs (bilouFlag : Bool) (td : TrainingDataTags) :
    List EntityTagSpec :=
  POSSIBLE_TAGS.filterMap (tagSpecFor bilouFlag td)

/-- `DIET._batch_loss_entities`: loops over the tag specs, skipping any spec
with `num_tags == 0`; the type head additionally feeds its one-hot encoded
tags to the later role/group heads.  The tensor computation of one loss term
is abstracted as `calcLoss`, the one-hot encoding as `oneHot`; the metric
updates have no bearing on the returned loss list and are not modelled. -/
def batchLossEntities {L E : Type} (calcLoss : EntityTagSpec → Option E → L)
    (oneHot : EntityTagSpec → E) :
    List EntityTagSpec → Option E → List L
  | [], _ => []
  | spec :: rest, entityTags =>
    if spec.num_tags = 0 then batchLossEntities calcLoss oneHot rest entityTags
    else
      let loss := calcLoss spec entityTags
      let newTags := if spec.tag_name = ENTITY_ATTRIBUTE_TYPE then some (oneHot spec)
        else entityTags
      loss :: batchLossEntities calcLoss oneHot rest newTags

/-- `DIET._batch_predict_entities`: loops over the tag specs, skipping any
spec with `num_tags == 0` (crf layer not trained); every kept spec adds the
two prediction keys `e_<name>_ids` and `e_<name>_scores`; the type head feeds
the one-hot encoding of its predicted ids to the later heads.  The crf
decoding is abstracted as `predictFor` (returning ids and confidences), the
one-hot encoding of predicted ids as `oneHotPred`. -/
def batchPredictEntities {E P : Type} (predictFor : EntityTagSpec → Option E → P × P)
    (oneHotPred : EntityTagSpec → P → E) :
    List EntityTagSpec → Option E → List (String × P)
  | [], _ => []
  | spec :: rest, entityTags =>
    if spec.num_tags = 0 then batchPredictEntities predictFor oneHotPred rest entityTags
    else
      let pr := predictFor spec entityTags
      let newTags := if spec.tag_name = ENTITY_ATTRIBUTE_TYPE
        then some (oneHotPred spec pr.1) else entityTags
      ("e_" ++ spec.tag_name ++ "_ids", pr.1)
        :: ("e_" ++ spec.tag_name ++ "_scores", pr.2)
        :: batchPredictEntities predictFor oneHotPred rest newTags

theorem tagIdIndexMappingFor_eq_none (raw : List (Option String))
    (h : realTagsOf raw = []) : tagIdIndexMappingFor raw = none := by
  rw [tagIdIndexMappingFor]
  simp only [h, List.isEmpty_nil, if_true]

theorem buildTagIdDict_eq_none (raw : List (Option String))
    (h : realTagsOf raw = []) : buildTagIdDict raw = none := by
  rw [buildTagIdDict]
  simp only [h, List.isEmpty_nil, if_true]

theorem tagSpecFor_eq_none (bilouFlag : Bool) (td : TrainingDataTags)
    (tagName : String) (h : realTagsOf (tagsFor td tagName) = []) :
    tagSpecFor bilouFlag td tagName = none := by
  rw [tagSpecFor]
  cases bilouFlag
  · rw [if_neg (by simp), tagIdIndexMappingFor_eq_none _ h]
  · rw [if_pos rfl, buildTagIdDict_eq_none _ h]

theorem tagSpecFor_name (bilouFlag : Bool) (td : TrainingDataTags)
    (tagName : String) (spec : EntityTagSpec)
    (h : tagSpecFor bilouFlag td tagName = some spec) : spec.tag_name = tagName := by
  unfold tagSpecFor at h
  split at h
  · exact Option.noConfusion h
  · split at h
    · exact Option.noConfusion h
    · cases h
      rfl

theorem batchLossEntities_filter {L E : Type}
    (calcLoss : EntityTagSpec → Option E → L) (oneHot : EntityTagSpec → E)
    (specs : List EntityTagSpec) :
    ∀ tags0 : Option E,
      batchLossEntities calcLoss oneHot specs tags0
        = batchLossEntities calcLoss oneHot
            (specs.filter (fun s => s.num_tags != 0)) tags0 := by
  induction specs with
  | nil => intro tags0; rfl
  | cons spec rest ih =>
    intro tags0
    by_cases hz : spec.num_tags = 0
    · have hb : (spec.num_tags != 0) = false := by simp [hz]
      rw [List.filter_cons, hb, if_neg Bool.false_ne_true]
      simp only [batchLossEntities, hz, if_true]
      exact ih tags0
    · have hb : (spec.num_tags != 0) = true := by simp [hz]
      rw [List.filter_cons, hb, if_pos rfl]
      simp only [batchLossEntities, hz, if_false]
      rw [ih]

theorem batchPredictEntities_filter {E P : Type}
    (predictFor : EntityTagSpec → Option E → P × P)
    (oneHotPred : EntityTagSpec → P → E)
    (specs : List EntityTagSpec) :
    ∀ tags0 : Option E,
      batchPredictEntities predictFor oneHotPred specs tags0
        = batchPredictEntities predictFor oneHotPred
            (specs.filter (fun s => s.num_tags != 0)) tags0 := by
  induction specs with
  | nil => intro tags0; rfl
  | cons spec rest ih =>
    intro tags0
    by_cases hz : spec.num_tags = 0
    · have hb : (spec.num_tags != 0) = false := by simp [hz]
      rw [List.filter_cons, hb, if_neg Bool.false_ne_true]
      simp only [batchPredictEntities, hz, if_true]
      exact ih tags0
    · have hb : (spec.num_tags != 0) = true := by simp [hz]
      rw [List.filter_cons, hb, if_pos rfl]
      simp only [batchPredictEntities, hz, if_false]
      rw [ih]

/-- Claim C3: an entity attribute with zero distinct real tags produces no
`EntityTagSpec`, and any spec with `num_tags == 0` is skipped by both the
training loss loop and the prediction loop: both loops behave exactly as if
run on the specs with a nonzero tag count only, so a zero-tag spec
contributes no loss term and no prediction key. -/
theorem zeroTag_attribute_skipped (L E P : Type)
    (calcLoss : EntityTagSpec → Option E → L) (oneHot : EntityTagSpec → E)
    (predictFor : EntityTagSpec → Option E → P × P)
    (oneHotPred : EntityTagSpec → P → E)
    (bilouFlag : Bool) (td : TrainingDataTags) (tagName : String)
    (hzero : realTagsOf (tagsFor td tagName) = []) :
    (∀ spec ∈ createEntityTagSpecs bilouFlag td, spec.tag_name ≠ tagName) ∧
    (∀ (specs : List EntityTagSpec) (tags0 : Option E),
      batchLossEntities calcLoss oneHot specs tags0
        = batchLossEntities calcLoss oneHot
            (specs.filter (fun s => s.num_tags != 0)) tags0) ∧
    (∀ (specs : List EntityTagSpec) (tags0 : Option E),
      batchPredictEntities predictFor oneHotPred specs tags0
        = batchPredictEntities predictFor oneHotPred
            (specs.filter (fun s => s.num_tags != 0)) tags0) := by
  refine ⟨?_, fun specs tags0 => batchLossEntities_filter _ _ specs tags0,
    fun specs tags0 => batchPredictEntities_filter _ _ specs tags0⟩
  intro spec hspec heq
  obtain ⟨t, _ht, hft⟩ := List.mem_filterMap.mp hspec
  have hname : spec.tag_name = t := tagSpecFor_name bilouFlag td t spec hft
  have ht : t = tagName := by rw [← hname, heq]
  rw [ht, tagSpecFor_eq_none bilouFlag td tagName hzero] at hft
  exact Option.noConfusion hft

/-- Witness for C3: a corpus with an entity type tag but no role tags yields
no role spec, and the loss loop on a zero-tag spec equals the loop on the
filtered list. -/
theorem zeroTag_attribute_skipped_witness :
    realTagsOf (tagsFor ⟨[some "city"], [], []⟩ ENTITY_ATTRIBUTE_ROLE) = [] ∧
    batchLossEntities (fun (_ : EntityTagSpec) (_ : Option Nat) => (7 : Nat))
        (fun _ => 0)
        [⟨ENTITY_ATTRIBUTE_ROLE, [], [], 0⟩, ⟨ENTITY_ATTRIBUTE_TYPE, [], [], 2⟩] none
      = batchLossEntities (fun (_ : EntityTagSpec) (_ : Option Nat) => (7 : Nat))
        (fun _ => 0)
        ([⟨ENTITY_ATTRIBUTE_ROLE, [], [], 0⟩, ⟨ENTITY_ATTRIBUTE_TYPE, [], [], 2⟩].filter
          (fun s => s.num_tags != 0)) none :=
  ⟨by decide,
    (zeroTag_attribute_skipped Nat Nat Nat
      (fun _ _ => 7) (fun _ => 0) (fun _ _ => (0, 0)) (fun _ _ => 0)
      false ⟨[some "city"], [], []⟩ ENTITY_ATTRIBUTE_ROLE (by decide)).2.1
      [⟨ENTITY_ATTRIBUTE_ROLE, [], [], 0⟩, ⟨ENTITY_ATTRIBUTE_TYPE, [], [], 2⟩] none⟩

/-! ### Training entry point: data-insufficiency skip checks -/

/-- The slice of `RasaModelData` that `train` inspects before fitting: the
flattened label-id array under `(LABEL, IDS)` and the emptiness of the data
mapping. -/
structure ModelData where
  labelIds : List Nat
  is_empty : Bool

/-- `DIETClassifier._check_enough_labels`:
`len(np.unique(model_data.get(LABEL_KEY, LABEL_SUB_KEY))) >= 2`. -/
def checkEnoughLabels (md : ModelData) : Bool :=
  decide (2 ≤ md.labelIds.dedup.length)

/-- The component state that `train` may mutate: the model attribute. -/
structure DIETState (M : Type) where
  model : Option M

/-- The configuration flags `train` reads. -/
structure TrainConfig where
  intent_classification : Bool
  entity_recognition : Bool

/-- `DIETClassifier.train` after `preprocess_train_data`: skip (log and
return, leaving the state untouched) when the model data is empty, or when
intent classification is enabled and fewer than 2 distinct label ids exist;
otherwise run the fitting tail (the entity-label sanity check, model creation,
`model.fit`), abstracted as `fit`.  The log statements carry no state and are
not modelled. -/
def train {M : Type}
    (fit : TrainConfig → DIETState M → ModelData → Except String (DIETState M))
    (cfg : TrainConfig) (st : DIETState M) (md : ModelData) :
    Except String (DIETState M) :=
  if md.is_empty then Except.ok st
  else if cfg.intent_classification && !(checkEnoughLabels md) then Except.ok st
  else fit cfg st md

/-- Claim C4: with intent classification enabled and fewer than 2 distinct
label ids in the preprocessed model data — or with empty model data — `train`
returns without training: the state (in particular `self.model`) is unchanged,
the fitting tail never runs, and no exception is raised. -/
theorem train_skips_without_crash (M : Type)
    (fit : TrainConfig → DIETState M → ModelData → Except String (DIETState M))
    (cfg : TrainConfig) (st : DIETState M) (md : ModelData)
    (h : md.is_empty = true ∨
      (cfg.intent_classification = true ∧ checkEnoughLabels md = false)) :
    train fit cfg st md = Except.ok st := by
  rcases h with h | ⟨hint, hlab⟩
  · rw [train, if_pos h]
  · rw [train]
    by_cases hemp : md.is_empty = true
    · rw [if_pos hemp]
    · rw [if_neg hemp, if_pos (by rw [hint, hlab]; rfl)]

/-- Witness for C4: one distinct label id with intent classification enabled;
the fitting tail would error, yet `train` returns the untouched state. -/
theorem train_skips_without_crash_witness :
    ((⟨[5, 5], false⟩ : ModelData).is_empty = true ∨
      ((⟨true, false⟩ : TrainConfig).intent_classification = true ∧
        checkEnoughLabels ⟨[5, 5], false⟩ = false)) ∧
    train (fun _ _ _ => Except.error "fit must not run") ⟨true, false⟩
        (⟨some 3⟩ : DIETState Nat) ⟨[5, 5], false⟩
      = Except.ok ⟨some 3⟩ :=
  ⟨Or.inr ⟨rfl, by decide⟩,
    train_skips_without_crash Nat (fun _ _ _ => Except.error "fit must not run")
      ⟨true, false⟩ ⟨some 3⟩ ⟨[5, 5], false⟩ (Or.inr ⟨rfl, by decide⟩)⟩

/-! ### Feature extraction: sparse/dense first-dimension consistency -/

/-- A feature array as seen by the consistency check: only its first
dimension (`features.shape[0]`) matters. -/
structure Feat where
  rows : Nat

/-- The four optional feature arrays `_extract_features` reads for one
message and attribute. -/
structure MessageFeatures where
  sparse_sequence : Option Feat
  sparse_sentence : Option Feat
  dense_sequence : Option Feat
  dense_sentence : Option Feat

/-- The configuration flags `_extract_features` reads. -/
structure ExtractConfig where
  num_transformer_layers : Nat
  entity_recognition : Bool

/-- Modelled from the spec: the intent attribute name (`INTENT` from
`rasa.shared.nlu.constants`, not under src). -/
def INTENT : String := "intent"

/-- Modelled from the spec: the intent-response-key attribute name
(`INTENT_RESPONSE_KEY` from `rasa.shared.nlu.constants`, not under src). -/
def INTENT_RESPONSE_KEY : String := "intent_response_key"

/-- The guard of each consistency check in `_extract_features`: both arrays
present and first dimensions differing. -/
def seqLengthsMismatch (a b : Option Feat) : Bool :=
  match a, b with
  | some x, some y => x.rows != y.rows
  | _, _ => false

/-- `DIETClassifier._extract_features`: raise on a sparse/dense first-dimension
mismatch at either granularity; otherwise optionally drop sequence features
(no transformer, no entity recognition, non-intent attribute) and assemble the
output feature dictionary. -/
def extractFeatures (cfg : ExtractConfig) (attr : String) (m : MessageFeatures) :
    Except String (List (String × Feat)) :=
  if seqLengthsMismatch m.dense_sequence m.sparse_sequence then
    Except.error ("Sequence dimensions for sparse and dense sequence features " ++
      "do not coincide for attribute " ++ attr)
  else if seqLengthsMismatch m.dense_sentence m.sparse_sentence then
    Except.error ("Sequence dimensions for sparse and dense sentence features " ++
      "do not coincide for attribute " ++ attr)
  else
    let dropSeq : Bool := decide (cfg.num_transformer_layers = 0)
      && !cfg.entity_recognition
      && !(attr == INTENT || attr == INTENT_RESPONSE_KEY)
    let sparseSeq := if dropSeq then none else m.sparse_sequence
    let denseSeq := if dropSeq then none else m.dense_sequence
    Except.ok
      ((match m.sparse_sentence with | some f => [("sparse_sentence", f)] | none => []) ++
       (match sparseSeq with | some f => [("sparse_sequence", f)] | none => []) ++
       (match m.dense_sentence with | some f => [("dense_sentence", f)] | none => []) ++
       (match denseSeq with | some f => [("dense_sequence", f)] | none => []))

/-- Claim C5: `_extract_features` raises a hard error when sparse and dense
features of the same granularity are both present with differing first
dimensions, and raises nothing from this check when the dimensions agree for
both granularities. -/
theorem extractFeatures_consistency (cfg : ExtractConfig) (attr : String)
    (m : MessageFeatures) :
    ((seqLengthsMismatch m.dense_sequence m.sparse_sequence = true ∨
        seqLengthsMismatch m.dense_sentence m.sparse_sentence = true) →
      (extractFeatures cfg attr m).isOk = false) ∧
    (seqLengthsMismatch m.dense_sequence m.sparse_sequence = false →
      seqLengthsMismatch m.dense_sentence m.sparse_sentence = false →
      (extractFeatures cfg attr m).isOk = true) := by
  constructor
  · intro h
    rw [extractFeatures]
    by_cases h1 : seqLengthsMismatch m.dense_sequence m.sparse_sequence = true
    · rw [if_pos h1]
      rfl
    · have h2 : seqLengthsMismatch m.dense_sentence m.sparse_sentence = true :=
        h.resolve_left h1
      rw [if_neg h1, if_pos h2]
      rfl
  · intro h1 h2
    rw [extractFeatures, if_neg (by simp [h1]), if_neg (by simp [h2])]
    rfl

/-- Witness for C5: a mismatched pair (dense sequence rows 3 vs sparse
sequence rows 2) errors; a fully agreeing message succeeds. -/
theorem extractFeatures_consistency_witness :
    (extractFeatures ⟨2, true⟩ "text"
        ⟨some ⟨2⟩, none, some ⟨3⟩, none⟩).isOk = false ∧
    (extractFeatures ⟨2, true⟩ "text"
        ⟨some ⟨2⟩, some ⟨1⟩, some ⟨2⟩, some ⟨1⟩⟩).isOk = true :=
  ⟨(extractFeatures_consistency ⟨2, true⟩ "text"
      ⟨some ⟨2⟩, none, some ⟨3⟩, none⟩).1 (Or.inl (by decide)),
    (extractFeatures_consistency ⟨2, true⟩ "text"
      ⟨some ⟨2⟩, some ⟨1⟩, some ⟨2⟩, some ⟨1⟩⟩).2 (by decide) (by decide)⟩

/-! ### Inference driver: label prediction and ranking

Similarity scores are modelled over `ℚ`.  `numpy.argsort` (ascending, stable:
numpy runs a stable insertion sort on arrays of fewer than 16 elements, and
ties keep their original index order) is modelled as sorting the index/value
pairs by value with ties broken by ascending index. -/

instance {ε α : Type} [DecidableEq ε] [DecidableEq α] : DecidableEq (Except ε α) :=
  fun a b =>
    match a, b with
    | .ok x, .ok y =>
      if h : x = y then isTrue (by rw [h])
      else isFalse (by intro hc; cases hc; exact h rfl)
    | .error x, .error y =>
      if h : x = y then isTrue (by rw [h])
      else isFalse (by intro hc; cases hc; exact h rfl)
    | .ok _, .error _ => isFalse (by intro hc; cases hc)
    | .error _, .ok _ => isFalse (by intro hc; cases hc)

/-- The sort key of the argsort model: ascending value, ties by ascending
original index. -/
def simLex (a b : Nat × ℚ) : Prop := a.2 < b.2 ∨ (a.2 = b.2 ∧ a.1 ≤ b.1)

instance : DecidableRel simLex := fun a b =>
  inferInstanceAs (Decidable (a.2 < b.2 ∨ (a.2 = b.2 ∧ a.1 ≤ b.1)))

instance : IsTrans (Nat × ℚ) simLex :=
  ⟨fun a b c hab hbc => by
    rcases hab with h | ⟨he, hi⟩ <;> rcases hbc with h2 | ⟨he2, hi2⟩
    · exact Or.inl (lt_trans h h2)
    · exact Or.inl (he2 ▸ h)
    · exact Or.inl (he ▸ h2)
    · exact Or.inr ⟨he.trans he2, le_trans hi hi2⟩⟩

instance : IsTotal (Nat × ℚ) simLex :=
  ⟨fun a b => by
    rcases lt_trichotomy a.2 b.2 with h | h | h
    · exact Or.inl (Or.inl h)
    · rcases le_total a.1 b.1 with hi | hi
      · exact Or.inl (Or.inr ⟨h, hi⟩)
      · exact Or.inr (Or.inr ⟨h.symm, hi⟩)
    · exact Or.inr (Or.inl h)⟩

/-- `message_sim.argsort()`: the indices that sort the values ascending. -/
def argsortAsc (values : List ℚ) : List Nat :=
  (List.insertionSort simLex values.enum).map Prod.fst

/-- `message_sim[::-1].sort()` leaves the array sorted descending; modelled as
an ascending sort followed by a reversal. -/
def sortDescending (values : List ℚ) : List ℚ :=
  (List.insertionSort (fun a b : ℚ => a ≤ b) values).reverse

/-- Modelled from the spec: `train_utils.normalize` (not under src) — keeps
the top `rankingLength` values, zeroes every value below the cutoff, and
renormalizes to sum 1 when the sum is positive. -/
def normalize (values : List ℚ) (rankingLength : Int) : List ℚ :=
  let newValues :=
    if 0 < rankingLength ∧ rankingLength < values.length then
      let threshold := (sortDescending values).getD (rankingLength.toNat - 1) 0
      values.map (fun v => if v < threshold then 0 else v)
    else values
  let s := newValues.sum
  if 0 < s then newValues.map (fun v => v / s) else newValues

/-- The configuration entries `_predict_label` reads.  `RANKING_LENGTH` may be
configured as `None`, modelled by `Option Int`. -/
structure PredictConfig where
  ranking_length : Option Int
  model_confidence : String

/-- The intent object `_predict_label` returns (name, hashed id,
confidence). -/
structure PredLabel where
  id : Option Int
  name : Option String
  confidence : ℚ
  deriving DecidableEq

/-- One entry of the returned intent ranking. -/
structure RankEntry where
  id : Int
  name : String
  confidence : ℚ
  deriving DecidableEq

/-- The body of `_predict_label` once a prediction is present and the ranking
length is an integer `rl`: compute the descending argsort of the similarities,
optionally normalize (softmax confidence with positive ranking length), sort
the similarities descending, and assemble the top label plus the truncated
ranking. -/
def predictLabelCore (hashFn : String → Int) (rl : Int) (mc : String)
    (indexToLabel : Nat → String) (sims0 : List ℚ) :
    PredLabel × List RankEntry :=
  let labelIds := (argsortAsc sims0).reverse
  let sims1 := if 0 < rl && (mc == SOFTMAX) then normalize sims0 rl else sims0
  let simsSorted := sortDescending sims1
  if labelIds.isEmpty then (⟨none, none, 0⟩, [])
  else
    let topName := indexToLabel (labelIds.headD 0)
    let outputLength : Nat :=
      if rl != 0 && (0 < rl && rl < LABEL_RANKING_LENGTH) then rl.toNat
      else LABEL_RANKING_LENGTH.toNat
    (⟨some (hashFn topName), some topName, simsSorted.headD 0⟩,
      ((labelIds.zip simsSorted).take outputLength).map (fun p =>
        ⟨hashFn (indexToLabel p.1), indexToLabel p.1, p.2⟩))

/-- `DIETClassifier._predict_label`.  `hashFn` abstracts Python's builtin
string hash; `indexToLabel` is `self.index_label_id_mapping`.  A `None`
prediction yields the null label and empty ranking; a `None` ranking length
hits the Python 3 comparison `None > 0` in the softmax normalization guard, a
`TypeError`, modelled as an error result. -/
def predictLabel (hashFn : String → Int) (cfg : PredictConfig)
    (indexToLabel : Nat → String) (predictOut : Option (List ℚ)) :
    Except String (PredLabel × List RankEntry) :=
  match predictOut with
  | none => Except.ok (⟨none, none, 0⟩, [])
  | some sims0 =>
    match cfg.ranking_length with
    | none => Except.error "unsupported comparison between NoneType and int"
    | some rl =>
      Except.ok (predictLabelCore hashFn rl cfg.model_confidence indexToLabel sims0)

/-! ### Ranking lemmas -/

theorem length_argsortAsc (vals : List ℚ) : (argsortAsc vals).length = vals.length := by
  rw [argsortAsc, List.length_map,
    (List.perm_insertionSort simLex vals.enum).length_eq, List.enum_length]

theorem length_normalize (vals : List ℚ) (rl : Int) :
    (normalize vals rl).length = vals.length := by
  rw [normalize]
  by_cases h1 : 0 < rl ∧ rl < (vals.length : Int)
  · rw [if_pos h1]
    by_cases h2 : (0:ℚ) < ((vals.map (fun v =>
        if v < (sortDescending vals).getD (rl.toNat - 1) 0 then 0 else v)).sum)
    · rw [if_pos h2, List.length_map, List.length_map]
    · rw [if_neg h2, List.length_map]
  · rw [if_neg h1]
    by_cases h2 : (0:ℚ) < vals.sum
    · rw [if_pos h2, List.length_map]
    · rw [if_neg h2]

theorem length_sortDescending (vals : List ℚ) :
    (sortDescending vals).length = vals.length := by
  rw [sortDescending, List.length_reverse,
    (List.perm_insertionSort (fun a b : ℚ => a ≤ b) vals).length_eq]

theorem sortDescending_pairwise (vals : List ℚ) :
    List.Pairwise (fun a b : ℚ => b ≤ a) (sortDescending vals) := by
  rw [sortDescending]
  exact List.pairwise_reverse.mpr
    (List.sorted_insertionSort (fun a b : ℚ => a ≤ b) vals)

/-- The reversed argsort orders the indices by strictly descending value, with
ties between equal values broken by descending original index. -/
theorem argsortAsc_reverse_pairwise (vals : List ℚ) :
    List.Pairwise
      (fun i j => vals.getD j 0 < vals.getD i 0 ∨
        (vals.getD i 0 = vals.getD j 0 ∧ j < i))
      (argsortAsc vals).reverse := by
  have hsorted : List.Pairwise simLex (List.insertionSort simLex vals.enum) :=
    List.sorted_insertionSort simLex vals.enum
  have hperm := List.perm_insertionSort simLex vals.enum
  have hmemval : ∀ p ∈ List.insertionSort simLex vals.enum, vals.getD p.1 0 = p.2 := by
    intro p hp
    have hp2 : p ∈ vals.enum := hperm.mem_iff.mp hp
    have hget := List.mem_enum_iff_getElem?.mp hp2
    rw [List.getD_eq_getElem?_getD, hget]
    rfl
  have hnodup : (List.map Prod.fst (List.insertionSort simLex vals.enum)).Nodup := by
    have hpm : (List.map Prod.fst (List.insertionSort simLex vals.enum)).Perm
        (List.map Prod.fst vals.enum) := hperm.map Prod.fst
    rw [hpm.nodup_iff, List.enum_map_fst]
    exact List.nodup_range vals.length
  have hne : List.Pairwise (fun a b : Nat × ℚ => a.1 ≠ b.1)
      (List.insertionSort simLex vals.enum) := List.pairwise_map.mp hnodup
  have hstrict : List.Pairwise
      (fun a b : Nat × ℚ => vals.getD a.1 0 < vals.getD b.1 0 ∨
        (vals.getD b.1 0 = vals.getD a.1 0 ∧ a.1 < b.1))
      (List.insertionSort simLex vals.enum) := by
    refine (hsorted.and hne).imp_of_mem ?_
    intro a b ha hb hab
    rcases hab with ⟨hlex, hne1⟩
    rw [hmemval a ha, hmemval b hb]
    rcases hlex with h | ⟨he, hi⟩
    · exact Or.inl h
    · exact Or.inr ⟨he.symm, lt_of_le_of_ne hi hne1⟩
  have hmap : List.Pairwise
      (fun i j => vals.getD i 0 < vals.getD j 0 ∨
        (vals.getD j 0 = vals.getD i 0 ∧ i < j)) (argsortAsc vals) := by
    rw [argsortAsc]
    exact List.pairwise_map.mpr hstrict
  exact List.pairwise_reverse.mpr hmap

theorem predictLabelCore_snd_eq (hashFn : String → Int) (rl : Int) (mc : String)
    (names : Nat → String) (sims0 : List ℚ)
    (hne : ((argsortAsc sims0).reverse).isEmpty = false)
    (hcond : (rl != 0 && (decide (0 < rl) && decide (rl < LABEL_RANKING_LENGTH)))
      = true) :
    (predictLabelCore hashFn rl mc names sims0).2
      = ((((argsortAsc sims0).reverse).zip
            (sortDescending (if decide (0 < rl) && (mc == SOFTMAX)
              then normalize sims0 rl else sims0))).take rl.toNat).map
          (fun p => (⟨hashFn (names p.1), names p.1, p.2⟩ : RankEntry)) := by
  rw [predictLabelCore]
  simp only [hne, Bool.false_eq_true, if_false, hcond, if_true]

theorem predictLabel_eq_core (hashFn : String → Int) (cfg : PredictConfig)
    (names : Nat → String) (sims : List ℚ) (r : Int)
    (hrl : cfg.ranking_length = some r) :
    predictLabel hashFn cfg names (some sims)
      = Except.ok (predictLabelCore hashFn r cfg.model_confidence names sims) := by
  unfold predictLabel
  rw [hrl]

/-- Claim C6 (amended): with `RANKING_LENGTH = r`, `0 < r < 10`, the returned
ranking has exactly `min r K` entries for `K` candidates, is ordered by
descending confidence, and its label ids follow the reversed stable argsort:
strictly descending similarity, with ties between equal similarity scores
broken by DESCENDING original label id (the claim said ascending; the code
reverses an ascending stable argsort, which flips ties). -/
theorem predictLabel_ranking_spec (hashFn : String → Int) (cfg : PredictConfig)
    (names : Nat → String) (sims : List ℚ) (r : Int)
    (hrl : cfg.ranking_length = some r) (h0 : 0 < r) (h10 : r < 10) :
    ∃ lbl rk, predictLabel hashFn cfg names (some sims) = Except.ok (lbl, rk) ∧
      rk.length = min r.toNat sims.length ∧
      List.Pairwise (fun a b : RankEntry => b.confidence ≤ a.confidence) rk ∧
      rk.map (fun e => e.name) = ((argsortAsc sims).reverse.take r.toNat).map names ∧
      List.Pairwise
        (fun i j => sims.getD j 0 < sims.getD i 0 ∨
          (sims.getD i 0 = sims.getD j 0 ∧ j < i))
        ((argsortAsc sims).reverse.take r.toNat) := by
  refine ⟨(predictLabelCore hashFn r cfg.model_confidence names sims).1,
    (predictLabelCore hashFn r cfg.model_confidence names sims).2,
    by rw [predictLabel_eq_core hashFn cfg names sims r hrl], ?_, ?_, ?_, ?_⟩
  all_goals
    by_cases hempty : ((argsortAsc sims).reverse).isEmpty = true
  case pos | pos | pos | pos =>
    have hsims : sims = [] := by
      have hnil : (argsortAsc sims).reverse = [] := by
        cases hcase : (argsortAsc sims).reverse with
        | nil => rfl
        | cons a l => rw [hcase] at hempty; exact absurd hempty (by simp)
      have hlen0 : (argsortAsc sims).length = 0 := by
        rw [← List.length_reverse, hnil]
        rfl
      rw [length_argsortAsc] at hlen0
      exact List.length_eq_zero.mp hlen0
    subst hsims
    have hcore : (predictLabelCore hashFn r cfg.model_confidence names []).2 = [] := by
      rw [predictLabelCore, if_pos hempty]
    simp only [hcore, argsortAsc, List.enum_nil, List.insertionSort, List.map_nil,
      List.reverse_nil, List.take_nil, List.length_nil, Nat.min_zero, List.Pairwise.nil]
  all_goals
    have hne : ((argsortAsc sims).reverse).isEmpty = false :=
      Bool.not_eq_true _ ▸ Bool.of_not_eq_true hempty
  all_goals
    have hcond : (r != 0 && (decide (0 < r) && decide (r < LABEL_RANKING_LENGTH)))
        = true := by
      simp only [LABEL_RANKING_LENGTH, Bool.and_eq_true, bne_iff_ne, ne_eq,
        decide_eq_true_eq]
      exact ⟨h0.ne', h0, h10⟩
  all_goals
    try rw [predictLabelCore_snd_eq hashFn r cfg.model_confidence names sims hne hcond]
  all_goals
    have hlenIds : ((argsortAsc sims).reverse).length = sims.length := by
      rw [List.length_reverse, length_argsortAsc]
  all_goals
    have hlenSorted : (sortDescending (if decide (0 < r) && (cfg.model_confidence == SOFTMAX)
        then normalize sims r else sims)).length = sims.length := by
      rw [length_sortDescending]
      by_cases hA : (decide (0 < r) && (cfg.model_confidence == SOFTMAX)) = true
      · rw [if_pos hA, length_normalize]
      · rw [if_neg hA]
  · -- length
    rw [List.length_map, List.length_take, List.length_zip, hlenIds, hlenSorted,
      Nat.min_self]
  · -- descending confidences
    apply List.pairwise_map.mpr
    apply List.Pairwise.sublist (List.take_sublist _ _)
    have hmapsnd : (((argsortAsc sims).reverse).zip
        (sortDescending (if decide (0 < r) && (cfg.model_confidence == SOFTMAX)
          then normalize sims r else sims))).map Prod.snd
        = sortDescending (if decide (0 < r) && (cfg.model_confidence == SOFTMAX)
          then normalize sims r else sims) :=
      List.map_snd_zip _ _ (le_of_eq (hlenSorted.trans hlenIds.symm))
    have hp := List.pairwise_map.mp (hmapsnd ▸ sortDescending_pairwise
      (if decide (0 < r) && (cfg.model_confidence == SOFTMAX)
        then normalize sims r else sims))
    exact hp
  · -- names follow the reversed argsort order
    have h1 : (((argsortAsc sims).reverse).zip
        (sortDescending (if decide (0 < r) && (cfg.model_confidence == SOFTMAX)
          then normalize sims r else sims))).map Prod.fst
        = (argsortAsc sims).reverse :=
      List.map_fst_zip _ _ (le_of_eq (hlenIds.trans hlenSorted.symm))
    rw [List.map_map]
    show _ = ((argsortAsc sims).reverse.take r.toNat).map names
    calc ((((argsortAsc sims).reverse).zip
          (sortDescending (if decide (0 < r) && (cfg.model_confidence == SOFTMAX)
            then normalize sims r else sims))).take r.toNat).map
          ((fun e : RankEntry => e.name) ∘
            (fun p => (⟨hashFn (names p.1), names p.1, p.2⟩ : RankEntry)))
        = ((((argsortAsc sims).reverse).zip
            (sortDescending (if decide (0 < r) && (cfg.model_confidence == SOFTMAX)
              then normalize sims r else sims))).take r.toNat).map
          (names ∘ Prod.fst) := rfl
      _ = (((((argsortAsc sims).reverse).zip
            (sortDescending (if decide (0 < r) && (cfg.model_confidence == SOFTMAX)
              then normalize sims r else sims))).take r.toNat).map Prod.fst).map
          names := by rw [List.map_map]
      _ = (((((argsortAsc sims).reverse).zip
            (sortDescending (if decide (0 < r) && (cfg.model_confidence == SOFTMAX)
              then normalize sims r else sims))).map Prod.fst).take r.toNat).map
          names := by rw [List.map_take]
      _ = ((argsortAsc sims).reverse.take r.toNat).map names := by rw [h1]
  · -- tie-break order of the ids
    exact List.Pairwise.sublist (List.take_sublist _ _)
      (argsortAsc_reverse_pairwise sims)

/-- Fixed label names used in concrete prediction scenarios. -/
def namesCE : Nat → String := fun i => ["a", "b", "c", "d", "e"].getD i "?"

/-- A trivial stand-in for the Python builtin string hash in concrete
scenarios. -/
def hashZero : String → Int := fun _ => 0

/-- Counterexample to C6 as stated: 5 candidates with similarities
5, 5, 9, 1, 2 and ranking length 2.  Ascending-id tie-breaking would rank
label id 0 (name a) second; the code ranks label id 1 (name b) second,
because reversing the ascending stable argsort turns ties into descending id
order. -/
theorem predictLabel_tiebreak_counterexample :
    predictLabel hashZero ⟨some 2, "linear_norm"⟩ namesCE (some [5, 5, 9, 1, 2])
      = Except.ok (⟨some 0, some "c", 9⟩, [⟨0, "c", 9⟩, ⟨0, "b", 5⟩]) ∧
    ([⟨0, "c", 9⟩, ⟨0, "b", 5⟩] : List RankEntry) ≠ [⟨0, "c", 9⟩, ⟨0, "a", 5⟩] :=
  ⟨by decide, by decide⟩

/-- Witness for C6 (amended) at ranking length 2 over 5 candidates: exactly
min 2 5 = 2 ranking entries come back. -/
theorem predictLabel_ranking_spec_witness :
    (predictLabel hashZero ⟨some 2, "linear_norm"⟩ namesCE
      (some [5, 5, 9, 1, 2])).toOption.map (fun p => p.2.length) = some 2 := by
  obtain ⟨lbl, rk, heq, hlen, _, _, _⟩ :=
    predictLabel_ranking_spec hashZero ⟨some 2, "linear_norm"⟩ namesCE
      [5, 5, 9, 1, 2] 2 rfl (by decide) (by decide)
  rw [heq]
  simp [hlen, Except.toOption]

theorem predictLabelCore_snd_eq_cap (hashFn : String → Int) (rl : Int) (mc : String)
    (names : Nat → String) (sims0 : List ℚ)
    (hne : ((argsortAsc sims0).reverse).isEmpty = false)
    (hcond : (rl != 0 && (decide (0 < rl) && decide (rl < LABEL_RANKING_LENGTH)))
      = false) :
    (predictLabelCore hashFn rl mc names sims0).2
      = ((((argsortAsc sims0).reverse).zip
            (sortDescending (if decide (0 < rl) && (mc == SOFTMAX)
              then normalize sims0 rl else sims0))).take
          LABEL_RANKING_LENGTH.toNat).map
          (fun p => (⟨hashFn (names p.1), names p.1, p.2⟩ : RankEntry)) := by
  rw [predictLabelCore]
  simp only [hne, Bool.false_eq_true, if_false, hcond]

/-- Claim C10 (amended): with `RANKING_LENGTH` equal to 0 or at least 10 the
ranking is truncated to the built-in cap of 10 entries (exactly `min 10 K`
entries for `K` candidates); with `RANKING_LENGTH` configured as `None`,
`_predict_label` does not truncate — it raises a `TypeError` at the
`None > 0` comparison in the softmax-normalization guard before any ranking
is produced.  The configured value bounds the output only strictly between 0
and 10 (see the ranking theorem). -/
theorem predictLabel_cap_spec (hashFn : String → Int) (cfg : PredictConfig)
    (names : Nat → String) (sims : List ℚ) (v : Int) :
    (cfg.ranking_length = some v → (v = 0 ∨ 10 ≤ v) →
      ∃ lbl rk, predictLabel hashFn cfg names (some sims) = Except.ok (lbl, rk) ∧
        rk.length = min LABEL_RANKING_LENGTH.toNat sims.length ∧
        rk.length ≤ 10) ∧
    (cfg.ranking_length = none →
      predictLabel hashFn cfg names (some sims)
        = Except.error "unsupported comparison between NoneType and int") := by
  constructor
  · intro hrl hv
    refine ⟨(predictLabelCore hashFn v cfg.model_confidence names sims).1,
      (predictLabelCore hashFn v cfg.model_confidence names sims).2,
      by rw [predictLabel_eq_core hashFn cfg names sims v hrl], ?_⟩
    by_cases hempty : ((argsortAsc sims).reverse).isEmpty = true
    · have hsims : sims = [] := by
        have hnil : (argsortAsc sims).reverse = [] := by
          cases hcase : (argsortAsc sims).reverse with
          | nil => rfl
          | cons a l => rw [hcase] at hempty; exact absurd hempty (by simp)
        have hlen0 : (argsortAsc sims).length = 0 := by
          rw [← List.length_reverse, hnil]
          rfl
        rw [length_argsortAsc] at hlen0
        exact List.length_eq_zero.mp hlen0
      subst hsims
      have hcore : (predictLabelCore hashFn v cfg.model_confidence names []).2 = [] := by
        rw [predictLabelCore, if_pos hempty]
      simp [hcore]
    · have hne : ((argsortAsc sims).reverse).isEmpty = false :=
        Bool.not_eq_true _ ▸ Bool.of_not_eq_true hempty
      have hcond : (v != 0 && (decide (0 < v) && decide (v < LABEL_RANKING_LENGTH)))
          = false := by
        rcases hv with hv | hv
        · simp [hv]
        · have : ¬ (v < LABEL_RANKING_LENGTH) := by
            rw [LABEL_RANKING_LENGTH]
            omega
          simp [this]
      rw [predictLabelCore_snd_eq_cap hashFn v cfg.model_confidence names sims hne hcond]
      have hlenIds : ((argsortAsc sims).reverse).length = sims.length := by
        rw [List.length_reverse, length_argsortAsc]
      have hlenSorted : (sortDescending (if decide (0 < v) &&
          (cfg.model_confidence == SOFTMAX) then normalize sims v else sims)).length
          = sims.length := by
        rw [length_sortDescending]
        by_cases hA : (decide (0 < v) && (cfg.model_confidence == SOFTMAX)) = true
        · rw [if_pos hA, length_normalize]
        · rw [if_neg hA]
      constructor
      · rw [List.length_map, List.length_take, List.length_zip, hlenIds, hlenSorted,
          Nat.min_self]
      · rw [List.length_map, List.length_take]
        exact le_trans (Nat.min_le_left _ _) (by rw [LABEL_RANKING_LENGTH]; rfl)
  · intro hrl
    unfold predictLabel
    rw [hrl]

/-- Counterexample to C10 as stated: with `RANKING_LENGTH = None` the
returned ranking is not truncated to at most 10 entries — no ranking is
returned at all, the call errors out (`None > 0` raises a `TypeError`). -/
theorem predictLabel_none_counterexample :
    predictLabel hashZero ⟨none, SOFTMAX⟩ namesCE (some [5])
      = Except.error "unsupported comparison between NoneType and int" ∧
    (predictLabel hashZero ⟨none, SOFTMAX⟩ namesCE (some [5])).isOk = false :=
  ⟨by decide, by decide⟩

/-- Witness for C10 (amended): ranking length 0 over 5 candidates yields all
5 = min 10 5 entries; a `None` ranking length errors. -/
theorem predictLabel_cap_spec_witness :
    (predictLabel hashZero ⟨some 0, "linear_norm"⟩ namesCE
      (some [5, 5, 9, 1, 2])).toOption.map (fun p => p.2.length) = some 5 ∧
    predictLabel hashZero ⟨none, "linear_norm"⟩ namesCE (some [5])
      = Except.error "unsupported comparison between NoneType and int" := by
  constructor
  · obtain ⟨lbl, rk, heq, hlen, _⟩ :=
      (predictLabel_cap_spec hashZero ⟨some 0, "linear_norm"⟩ namesCE
        [5, 5, 9, 1, 2] 0).1 rfl (Or.inl rfl)
    rw [heq]
    simp [hlen, Except.toOption, LABEL_RANKING_LENGTH]
  · exact (predictLabel_cap_spec hashZero ⟨none, "linear_norm"⟩ namesCE [5] 0).2 rfl

/-! ### Prepared-state guard for intent prediction -/

/-- The DIET model state read by `_batch_predict_intents` and written by
`prepare_for_predict`: the cached all-labels embedding. -/
structure DIETModelState (E : Type) where
  intent_classification : Bool
  all_labels_embed : Option E

/-- `DIET.prepare_for_predict`: recompute the all-labels embedding cache when
intent classification is enabled.  `_create_all_labels` is abstracted as
`createAllLabels`. -/
def prepareForPredict {E : Type} (createAllLabels : Unit → E)
    (st : DIETModelState E) : DIETModelState E :=
  if st.intent_classification then
    { st with all_labels_embed := some (createAllLabels ()) }
  else st

/-- `DIET._batch_predict_intents`: hard error when the all-labels embedding
cache was never built; otherwise the similarity scoring against the cache,
abstracted as `score`. -/
def batchPredictIntents {E O : Type} (score : E → O) (st : DIETModelState E) :
    Except String O :=
  match st.all_labels_embed with
  | none => Except.error ("The model was not prepared for prediction. " ++
      "Call prepare_for_predict first.")
  | some embed => Except.ok (score embed)

/-- Claim C7: with intent classification enabled, `_batch_predict_intents`
raises a descriptive hard error while the all-labels embedding cache is
unset, and does not raise after `prepare_for_predict` has run. -/
theorem batchPredictIntents_guard (E O : Type) (score : E → O)
    (createAllLabels : Unit → E) (st : DIETModelState E)
    (hic : st.intent_classification = true) :
    (st.all_labels_embed = none →
      batchPredictIntents score st
        = Except.error ("The model was not prepared for prediction. " ++
            "Call prepare_for_predict first.")) ∧
    (batchPredictIntents score (prepareForPredict createAllLabels st)).isOk
      = true := by
  constructor
  · intro h
    unfold batchPredictIntents
    rw [h]
  · rw [prepareForPredict, if_pos hic]
    rfl

/-- Witness for C7 with an unprepared state. -/
theorem batchPredictIntents_guard_witness :
    batchPredictIntents (fun e : Nat => e) (⟨true, none⟩ : DIETModelState Nat)
      = Except.error ("The model was not prepared for prediction. " ++
          "Call prepare_for_predict first.") ∧
    (batchPredictIntents (fun e : Nat => e)
      (prepareForPredict (fun _ => 5) (⟨true, none⟩ : DIETModelState Nat))).isOk
      = true :=
  ⟨(batchPredictIntents_guard Nat Nat (fun e => e) (fun _ => 5) ⟨true, none⟩ rfl).1 rfl,
    (batchPredictIntents_guard Nat Nat (fun e => e) (fun _ => 5) ⟨true, none⟩ rfl).2⟩

/-! ### Inference drivers: predict, entity assembly, process write-back -/

/-- `DIETClassifier._predict`: `None` when no trained model is present,
otherwise the model prediction (`rasa_predict` and the single-message batch
construction abstracted as `rasaPredict`). -/
def predict {M O : Type} (rasaPredict : M → O) (model : Option M) : Option O :=
  match model with
  | none => none
  | some m => some (rasaPredict m)

/-- `DIETClassifier._predict_entities`: empty when the predict output is
`None`; otherwise the pre-existing message entities followed by the newly
predicted ones (tag decoding, span conversion and extractor attribution
abstracted as `newEntities`). -/
def predictEntities {O En : Type} (newEntities : O → List En)
    (preexisting : List En) (predictOut : Option O) : List En :=
  match predictOut with
  | none => []
  | some out => preexisting ++ newEntities out

/-- The entity write-back of `DIETClassifier.process`: run `_predict` and,
when entity recognition is enabled, replace the message entity list with the
result of `_predict_entities`. -/
def processMessage {M O En : Type} (entityRecognition : Bool)
    (rasaPredict : M → O) (newEntities : O → List En)
    (model : Option M) (entities0 : List En) : List En :=
  let out := predict rasaPredict model
  if entityRecognition then predictEntities newEntities entities0 out
  else entities0

/-- Claim C8: with no trained model, `_predict` returns `None`,
`_predict_label` returns the null label (no name, no id, confidence 0) with
an empty ranking, and `_predict_entities` returns an empty entity list —
without raising. -/
theorem untrained_model_null_result (M O En : Type) (rasaPredict : M → O)
    (newEntities : O → List En) (hashFn : String → Int) (cfg : PredictConfig)
    (names : Nat → String) (preexisting : List En) (model : Option M)
    (hm : model = none) :
    predict rasaPredict model = none ∧
    predictLabel hashFn cfg names none = Except.ok (⟨none, none, 0⟩, []) ∧
    predictEntities newEntities preexisting none = [] := by
  subst hm
  exact ⟨rfl, rfl, rfl⟩

/-- Witness for C8. -/
theorem untrained_model_null_result_witness :
    predict (fun m : Nat => m) (none : Option Nat) = none ∧
    predictLabel hashZero ⟨some 10, SOFTMAX⟩ namesCE none
      = Except.ok (⟨none, none, 0⟩, []) ∧
    predictEntities (fun _ : Nat => (["x"] : List String)) ["prior"] none = [] :=
  untrained_model_null_result Nat Nat String (fun m => m) (fun _ => ["x"])
    hashZero ⟨some 10, SOFTMAX⟩ namesCE ["prior"] none rfl

/-- Counterexample to C9 as stated: with no trained model the predict output
is `None`, `_predict_entities` returns `[]`, and `process` overwrites the
message entity list with `[]` — the pre-existing entity is dropped, not
preserved as a front segment. -/
theorem process_entities_counterexample :
    processMessage true (fun m : Nat => m) (fun _ : Nat => (["new"] : List String))
        none ["prior"] = [] ∧
    (processMessage true (fun m : Nat => m) (fun _ : Nat => (["new"] : List String))
        none ["prior"]).take 1 ≠ ["prior"] :=
  ⟨rfl, by decide⟩

/-- Claim C9 (amended): when a trained model is present, the entity list
written back by `process` is exactly the pre-existing entities in their
original order followed by the newly predicted entities; when no trained
model is present, the written-back list is empty, dropping any pre-existing
entities. -/
theorem process_appends_entities (M O En : Type) (rasaPredict : M → O)
    (newEntities : O → List En) (model : Option M) (m : M) (entities0 : List En)
    (hm : model = some m) :
    processMessage true rasaPredict newEntities model entities0
      = entities0 ++ newEntities (rasaPredict m) ∧
    processMessage true rasaPredict newEntities (none : Option M) entities0
      = [] := by
  subst hm
  exact ⟨rfl, rfl⟩

/-- Witness for C9 (amended). -/
theorem process_appends_entities_witness :
    processMessage true (fun m : Nat => m + 1) (fun o : Nat => [o]) (some 4) [100]
      = [100] ++ [5] ∧
    processMessage true (fun m : Nat => m + 1) (fun o : Nat => [o])
        (none : Option Nat) [100] = [] :=
  ⟨(process_appends_entities Nat Nat Nat (fun m => m + 1) (fun o => [o])
      (some 4) 4 [100] rfl).1,
    (process_appends_entities Nat Nat Nat (fun m => m + 1) (fun o => [o])
      (some 4) 4 [100] rfl).2⟩

end DIET
